import Mathlib

/-!
Shallow embedding of the connection-topology manager of `dgcore-database`
(Go package `database`): the `Manager` structure, slave selection
(round-robin / random / weighted), the read/write classifier, retry with
exponential backoff, pool sizing, named-connection registry mutation and
teardown.  Database handles (`*gorm.DB`) are abstracted as an arbitrary
type `DB`; the outcome of dialing a physical database is supplied as an
explicit input (`Except String DB`), and a Go runtime panic caused by an
out-of-range slice index is modelled as `Option.none` from `List.get?`.
-/

namespace Database

/-- From `config.go` (`ConnectionConfig`): the per-connection configuration.
Only the fields read by the embedded functions are kept; `MaxOpenConns`,
`MaxIdleConns` are `*int` in Go, hence `Option Int` here. -/
structure ConnectionConfig where
  driver : String := ""
  host : String := ""
  database : String := ""
  filePath : String := ""
  maxOpenConns : Option Int := none
  maxIdleConns : Option Int := none
  weight : Int := 0
  deriving Repr, DecidableEq

/-- From `config.go` (`Config`): the manager-level configuration, restricted
to the fields the embedded functions read.  `modelsCount` stands for
`len(config.Models)` (only its positivity is ever inspected). -/
structure Config where
  driver : String := ""
  database : String := ""
  filePath : String := ""
  maxOpenConns : Int := 0
  maxIdleConns : Int := 0
  autoMigrate : Bool := false
  modelsCount : Nat := 0
  readWriteSplitting : Bool := false
  autoRouting : Bool := false
  master : ConnectionConfig := {}
  slaves : List ConnectionConfig := []
  slaveStrategy : String := ""
  connections : List (String × ConnectionConfig) := []
  deriving Repr, DecidableEq

/-- From `manager.go` (`Manager`): the topology state.  The mutexes guard
purely sequential state here; the named-connection map is modelled as an
association list. -/
structure Manager (DB : Type) where
  db : DB
  config : Config
  master : DB
  slaves : List DB
  slaveIndex : Nat
  connections : List (String × DB)
  deriving Repr, DecidableEq

/-- From `manager.go` `selectWeightedSlave`, the scan loop
(`for i, slaveConfig := range m.config.Slaves { cumulative += ...; if r < cumulative { return m.slaves[i] } }`
followed by `return m.slaves[0]`).  `i` is the current absolute index,
`cum` the accumulated weight; `none` models the index-out-of-range panic. -/
def weightedScan {DB : Type} (configs : List ConnectionConfig) (slaves : List DB)
    (r : Int) (cum : Int) (i : Nat) : Option DB :=
  match configs with
  | [] => slaves.get? 0
  | c :: rest =>
      if r < cum + c.weight then slaves.get? i
      else weightedScan rest slaves r (cum + c.weight) (i + 1)

/-- From `manager.go` `selectWeightedSlave`: total weight over the
*configured* slaves; total 0 short-circuits to `slaves[0]`, otherwise the
draw `r` (the value of `rand.Intn(totalWeight)`) drives the scan. -/
def selectWeightedSlave {DB : Type} (m : Manager DB) (r : Nat) : Option DB :=
  let totalWeight := (m.config.slaves.map (·.weight)).sum
  if totalWeight = 0 then m.slaves.get? 0
  else weightedScan m.config.slaves m.slaves (r : Int) 0 0

/-- From `manager.go` `selectSlave`: strategy dispatch.  `r` supplies the
value drawn by `rand.Intn` for the random/weighted branches (the
round-robin branch ignores it).  Returns the selected handle (`none` for a
runtime panic) together with the updated manager state. -/
def selectSlave {DB : Type} (m : Manager DB) (r : Nat) : Option DB × Manager DB :=
  match m.config.slaveStrategy with
  | "round-robin" =>
      (m.slaves.get? m.slaveIndex,
       { m with slaveIndex := (m.slaveIndex + 1) % m.slaves.length })
  | "random" => (m.slaves.get? r, m)
  | "weighted" => (selectWeightedSlave m r, m)
  | _ => (m.slaves.get? 0, m)

/-- From `manager.go` `Read`: fall back to master when splitting is off or
no slave connected, otherwise select a slave. -/
def Read {DB : Type} (m : Manager DB) (r : Nat) : Option DB × Manager DB :=
  if !m.config.readWriteSplitting || m.slaves.isEmpty then (some m.master, m)
  else selectSlave m r

/-- Iterate `selectSlave` (each call fed draw 0; the round-robin branch
never reads the draw), collecting the returned handles in order. -/
def runSelect {DB : Type} (m : Manager DB) : Nat → List (Option DB) × Manager DB
  | 0 => ([], m)
  | n + 1 =>
      let step := selectSlave m 0
      let rest := runSelect step.2 n
      (step.1 :: rest.1, rest.2)

/-- Spec-side definition (for the refinement statement of the weighted
strategy): the index of the first slave whose cumulative configured weight
strictly exceeds the draw `r`; recursing past an element subtracts its
weight from the draw, so `r < w` tests `r_original < cumulative`. -/
def firstIndexExceeding (ws : List Int) (r : Int) : Nat :=
  match ws with
  | [] => 0
  | w :: rest => if r < w then 0 else firstIndexExceeding rest (r - w) + 1

/-! ## Write classifier (`plugin.go`, `isWriteOperation`) -/

/-- From `plugin.go`: the write-verb list, as character lists (the Go code
compares raw bytes of the rendered SQL; all verbs are ASCII). -/
def writeKeywords : List (List Char) :=
  ["INSERT".toList, "UPDATE".toList, "DELETE".toList,
   "CREATE".toList, "ALTER".toList, "DROP".toList]

/-- From `plugin.go` `isWriteOperation`: empty text is a read; otherwise a
write iff some keyword matches the text's leading bytes
(`len(sql) >= len(keyword) && sql[:len(keyword)] == keyword`). -/
def isWriteOperation (sql : List Char) : Bool :=
  if sql.isEmpty then false
  else writeKeywords.any fun kw =>
    decide (kw.length ≤ sql.length) && decide (sql.take kw.length = kw)

/-! ## Retry with exponential backoff (`retry.go`, `connectWithRetry`) -/

/-- From `config.go`-side retry settings as consumed by
`connectWithRetry`: delays are `time.Duration` (int64 nanoseconds),
`BackoffFactor` is a `float64`, modelled as an exact rational (exact for
every factor the repository's tests use: 1.5, 2.0, 2.5, 3.0). -/
structure RetryConfig where
  enabled : Bool := false
  maxAttempts : Nat := 0
  initialDelay : Int := 0
  maxDelay : Int := 0
  backoffFactor : ℚ := 0
  deriving Repr, DecidableEq

/-- Go's `time.Duration(float64(delay) * factor)` conversion truncates
toward zero. -/
def durTrunc (q : ℚ) : Int :=
  if q < 0 then -⌊-q⌋ else ⌊q⌋

/-- From `retry.go`: one backoff step —
`delay = time.Duration(float64(delay) * BackoffFactor); if delay > MaxDelay { delay = MaxDelay }`. -/
def nextDelay (rc : RetryConfig) (d : Int) : Int :=
  let d2 := durTrunc ((d : ℚ) * rc.backoffFactor)
  if rc.maxDelay < d2 then rc.maxDelay else d2

/-- The error value `connectWithRetry` surfaces: either the direct
(retry-disabled) connection error, or the exhaustion error
`"failed to connect after %d attempts: %w"` carrying the attempt count it
names and the last underlying cause (`none` when no attempt ran, i.e. a
`nil` wrapped error). -/
inductive ConnError where
  | direct (cause : String)
  | exhausted (attemptsNamed : Nat) (lastCause : Option String)
  deriving Repr, DecidableEq

/-- Observable trace of one `connectWithRetry` call: overall result, the
number of connection attempts actually made, and the sleeps performed (in
order, nanoseconds). -/
structure RetryTrace where
  result : Except ConnError Unit
  attemptsMade : Nat
  sleeps : List Int
  deriving Repr

/-- From `retry.go`: the `for attempt := 1; attempt <= MaxAttempts` loop.
`outcome k` is the result of the `k`-th `connectWithConfig` call,
`remaining` the number of attempts still allowed (including the current
one), `d` the current delay.  Returns attempts made, sleeps performed, and
`Except` over the last error (`Except.error none` when the loop body never
ran). -/
def retryLoop (outcome : Nat → Except String Unit) (rc : RetryConfig) :
    Nat → Nat → Int → Nat × List Int × Except (Option String) Unit
  | 0, _, _ => (0, [], Except.error none)
  | remaining + 1, attempt, d =>
      match outcome attempt with
      | Except.ok _ => (1, [], Except.ok ())
      | Except.error e =>
          if remaining = 0 then (1, [], Except.error (some e))
          else
            let rest := retryLoop outcome rc remaining (attempt + 1) (nextDelay rc d)
            (rest.1 + 1, d :: rest.2.1, rest.2.2)

/-- From `retry.go` `connectWithRetry`: disabled policy delegates to a
single direct `connectWithConfig` call; enabled policy runs the loop and
wraps exhaustion with `MaxAttempts` and the last cause. -/
def connectWithRetry (rc : RetryConfig) (outcome : Nat → Except String Unit) : RetryTrace :=
  if rc.enabled = false then
    match outcome 1 with
    | Except.ok _ => ⟨Except.ok (), 1, []⟩
    | Except.error e => ⟨Except.error (ConnError.direct e), 1, []⟩
  else
    match retryLoop outcome rc rc.maxAttempts 1 rc.initialDelay with
    | (n, sleeps, Except.ok _) => ⟨Except.ok (), n, sleeps⟩
    | (n, sleeps, Except.error last) =>
        ⟨Except.error (ConnError.exhausted rc.maxAttempts last), n, sleeps⟩

/-! ## Pool sizing (`manager.go` `setupPrimaryConnection`, `connection.go`
`connectWithConfig`) -/

/-- The `SetMaxOpenConns`/`SetMaxIdleConns` calls a connection receives
while being established (`none` = never called, driver default kept). -/
structure PoolSettings where
  maxOpen : Option Int
  maxIdle : Option Int
  deriving Repr, DecidableEq

/-- From `manager.go` `setupPrimaryConnection` lines 77-88: a sqlite
`:memory:` target (database name or file path) forces a 1 open / 1 idle
pool; every other primary target gets the config-level pool sizes. -/
def primaryPoolSettings (c : Config) : PoolSettings :=
  if c.driver = "sqlite" ∧ (c.database = ":memory:" ∨ c.filePath = ":memory:") then
    ⟨some 1, some 1⟩
  else ⟨some c.maxOpenConns, some c.maxIdleConns⟩

/-- From `connection.go` `connectWithConfig` lines 102-110: pool overrides
are applied exactly when the corresponding `*int` field is non-nil; there
is no `:memory:` special case on this path (used for master, slaves and
named connections). -/
def connectWithConfigPoolSettings (c : ConnectionConfig) : PoolSettings :=
  ⟨c.maxOpenConns, c.maxIdleConns⟩

/-! ## Manager construction (`manager.go` `NewManager` and the setup
helpers).  The outcomes of the physical dial attempts are supplied by a
`World`, so construction itself is a pure function. -/

/-- Environment of one `NewManager` run: the result of each underlying
connection attempt (`connect` for the primary, `connectWithConfig` for
master / slave index `i` / named connection `name`) and of the optional
auto-migration. -/
structure World (DB : Type) where
  connectPrimary : Except String DB
  autoMigrateOk : Bool
  connectMaster : Except String DB
  connectSlave : Nat → Except String DB
  connectNamed : String → Except String DB

/-- From `manager.go` `setupPrimaryConnection`: dial the primary (wrapping
a failure as `failed to connect to database`), then auto-migrate when
configured (failure aborts with `auto migration failed`). -/
def setupPrimaryConnection {DB : Type} (cfg : Config) (w : World DB) : Except String DB :=
  match w.connectPrimary with
  | Except.error e => Except.error ("failed to connect to database: " ++ e)
  | Except.ok db =>
      if cfg.autoMigrate ∧ cfg.modelsCount ≠ 0 then
        if w.autoMigrateOk then Except.ok db else Except.error "auto migration failed"
      else Except.ok db

/-- From `manager.go` `setupReadWriteSplitting` lines 113-121: the
connected-slave list keeps, in configured order, exactly the slaves whose
dial succeeded (failures are logged and skipped). -/
def connectedSlaves {DB : Type} (cfg : Config) (w : World DB) : List DB :=
  (List.range cfg.slaves.length).filterMap fun i => (w.connectSlave i).toOption

/-- From `manager.go` `setupNamedConnections`: the registry keeps exactly
the named connections whose dial succeeded (failures are logged and
skipped; this helper never returns an error). -/
def connectedNamed {DB : Type} (cfg : Config) (w : World DB) : List (String × DB) :=
  cfg.connections.filterMap fun p => (w.connectNamed p.1).toOption.map fun db => (p.1, db)

/-- From `manager.go` `setupReadWriteSplitting`: an explicit master host
makes a failed master dial abort construction
(`failed to connect to master`); otherwise the master stays the primary.
Returns the master handle and the connected slaves. -/
def setupReadWriteSplitting {DB : Type} (cfg : Config) (w : World DB) (primaryDb : DB) :
    Except String (DB × List DB) :=
  if cfg.master.host ≠ "" then
    match w.connectMaster with
    | Except.error e => Except.error ("failed to connect to master: " ++ e)
    | Except.ok mdb => Except.ok (mdb, connectedSlaves cfg w)
  else Except.ok (primaryDb, connectedSlaves cfg w)

/-- From `manager.go` `NewManager`: primary setup, then read/write
splitting when enabled, then named connections when configured. -/
def NewManager {DB : Type} (cfg : Config) (w : World DB) : Except String (Manager DB) :=
  match setupPrimaryConnection cfg w with
  | Except.error e => Except.error e
  | Except.ok db =>
      match (if cfg.readWriteSplitting then setupReadWriteSplitting cfg w db
             else Except.ok (db, [])) with
      | Except.error e => Except.error e
      | Except.ok ms =>
          Except.ok
            { db := db, config := cfg, master := ms.1, slaves := ms.2, slaveIndex := 0,
              connections := if cfg.connections.length ≠ 0 then connectedNamed cfg w else [] }

/-! ## Named-connection registry mutation and teardown (`manager.go`
`AddConnection`, `RemoveConnection`, `Close`).  Each operation also
returns the list of handles whose `sqlDB.Close()` it invoked, so that
resource release is observable. -/

/-- Go map lookup `m.connections[name]` on the association-list model. -/
def lookupConn {DB : Type} (conns : List (String × DB)) (name : String) : Option DB :=
  (conns.find? fun p => p.1 = name).map (·.2)

/-- Go map assignment `m.connections[name] = db`: a Go map is unordered
with unique keys, so the assignment is modelled as the new binding together
with every binding under a different key — an existing binding under
`name` is overwritten (and in particular not closed). -/
def mapInsert {DB : Type} (conns : List (String × DB)) (name : String) (db : DB) :
    List (String × DB) :=
  (name, db) :: conns.filter fun p => p.1 ≠ name

/-- From `manager.go` `AddConnection`: dial, fail with a wrapped error, or
install the handle under `name` — overwriting any existing binding without
closing it (the second list of the result is the handles closed during the
call, and it is always empty on this path). -/
def AddConnection {DB : Type} (m : Manager DB) (name : String)
    (connResult : Except String DB) : Except String (Manager DB × List DB) :=
  match connResult with
  | Except.error e => Except.error ("failed to add connection " ++ name ++ ": " ++ e)
  | Except.ok db => Except.ok ({ m with connections := mapInsert m.connections name db }, [])

/-- From `manager.go` `RemoveConnection`: close and delete an existing
binding (returning the closed handle), or fail with `connection not found`. -/
def RemoveConnection {DB : Type} (m : Manager DB) (name : String) :
    Except String (Manager DB × List DB) :=
  match lookupConn m.connections name with
  | some db =>
      Except.ok ({ m with connections := m.connections.filter fun p => p.1 ≠ name }, [db])
  | none => Except.error ("connection not found: " ++ name)

/-- From `manager.go` `Close` lines 173-199: the handles whose
`sqlDB.Close()` is invoked — the primary `m.db`, every connected slave,
and every named connection, in that order.  The master handle is closed
only insofar as it coincides with one of these (it is `m.db` unless an
explicit master was dialed); `Close` always returns nil and leaves the
topology fields untouched. -/
def Close {DB : Type} (m : Manager DB) : List DB :=
  [m.db] ++ m.slaves ++ m.connections.map (·.2)

/-! ## Theorems -/

theorem selectSlave_roundRobin {DB : Type} (m : Manager DB) (r : Nat)
    (h : m.config.slaveStrategy = "round-robin") :
    selectSlave m r =
      (m.slaves.get? m.slaveIndex,
       { m with slaveIndex := (m.slaveIndex + 1) % m.slaves.length }) := by
  unfold selectSlave
  rw [h]
  rfl

theorem runSelect_roundRobin {DB : Type} (N : Nat) (hN : 0 < N) :
    ∀ (M : Nat) (m : Manager DB),
      m.config.slaveStrategy = "round-robin" → m.slaves.length = N →
      m.slaveIndex < N →
      (runSelect m M).1 =
          (List.range M).map (fun i => m.slaves.get? ((m.slaveIndex + i) % N))
        ∧ (runSelect m M).2.slaveIndex = (m.slaveIndex + M) % N := by
  intro M
  induction M with
  | zero =>
      intro m _ _ hidx
      simp [runSelect, Nat.mod_eq_of_lt hidx]
  | succ M ih =>
      intro m hstrat hlen hidx
      have hstep := selectSlave_roundRobin m 0 hstrat
      have hrec := ih { m with slaveIndex := (m.slaveIndex + 1) % m.slaves.length }
        hstrat hlen (by rw [hlen]; exact Nat.mod_lt _ hN)
      have hrec1 : (runSelect { m with slaveIndex := (m.slaveIndex + 1) % m.slaves.length } M).1 =
          (List.range M).map
            (fun i => m.slaves.get? (((m.slaveIndex + 1) % m.slaves.length + i) % N)) := hrec.1
      have hrec2 : (runSelect { m with slaveIndex := (m.slaveIndex + 1) % m.slaves.length } M).2.slaveIndex =
          ((m.slaveIndex + 1) % m.slaves.length + M) % N := hrec.2
      refine ⟨?_, ?_⟩
      · have hsplit : (runSelect m (M + 1)).1 =
            (selectSlave m 0).1 :: (runSelect (selectSlave m 0).2 M).1 := rfl
        rw [hsplit, hstep, hrec1, List.range_succ_eq_map, List.map_cons, List.map_map]
        refine congrArg₂ List.cons ?_ ?_
        · show m.slaves.get? m.slaveIndex = m.slaves.get? ((m.slaveIndex + 0) % N)
          rw [Nat.add_zero, Nat.mod_eq_of_lt hidx]
        · refine List.map_congr_left fun i _ => ?_
          simp only [Function.comp_apply, Nat.succ_eq_add_one, hlen]
          rw [Nat.mod_add_mod]
          have harith : m.slaveIndex + 1 + i = m.slaveIndex + (i + 1) := by omega
          rw [harith]
      · have hsplit : (runSelect m (M + 1)).2 = (runSelect (selectSlave m 0).2 M).2 := rfl
        rw [hsplit, hstep]
        dsimp only
        rw [hrec2, hlen, Nat.mod_add_mod]
        have harith : m.slaveIndex + 1 + M = m.slaveIndex + (M + 1) := by omega
        rw [harith]

/-- C2: under the round-robin strategy with N ≥ 1 connected slaves and the
cursor at 0, M successive `selectSlave` calls return the slaves at indices
0, 1, …, (M-1) mod N in order, and the cursor ends at M mod N. -/
theorem c2_round_robin_sequence {DB : Type} (m : Manager DB) (M : Nat)
    (hstrat : m.config.slaveStrategy = "round-robin")
    (h0 : m.slaveIndex = 0) (hne : m.slaves ≠ []) :
    (runSelect m M).1 =
        (List.range M).map (fun i => m.slaves.get? (i % m.slaves.length))
      ∧ (runSelect m M).2.slaveIndex = M % m.slaves.length := by
  have hN : 0 < m.slaves.length := List.length_pos.mpr hne
  have h := runSelect_roundRobin m.slaves.length hN M m hstrat rfl (by rw [h0]; exact hN)
  rw [h0] at h
  simpa using h

/-- A concrete topology for the round-robin witness: two slaves (handles
10 and 20), strategy round-robin, cursor 0. -/
def mgrRR : Manager Nat :=
  { db := 1
    config := { slaveStrategy := "round-robin"
                readWriteSplitting := true
                slaves := [{ host := "s0" }, { host := "s1" }] }
    master := 1
    slaves := [10, 20]
    slaveIndex := 0
    connections := [] }

theorem c2_round_robin_sequence_witness :
    (mgrRR.config.slaveStrategy = "round-robin" ∧ mgrRR.slaveIndex = 0 ∧ mgrRR.slaves ≠ [])
    ∧ ((runSelect mgrRR 5).1 =
          (List.range 5).map (fun i => mgrRR.slaves.get? (i % mgrRR.slaves.length))
        ∧ (runSelect mgrRR 5).2.slaveIndex = 5 % mgrRR.slaves.length) :=
  ⟨⟨rfl, rfl, by decide⟩, c2_round_robin_sequence mgrRR 5 rfl rfl (by decide)⟩

theorem firstIndexExceeding_cons (w : Int) (ws : List Int) (r : Int) :
    firstIndexExceeding (w :: ws) r =
      if r < w then 0 else firstIndexExceeding ws (r - w) + 1 := rfl

theorem weightedScan_eq_firstIndexExceeding {DB : Type} :
    ∀ (configs : List ConnectionConfig) (slaves : List DB) (r cum : Int) (i : Nat),
      cum ≤ r → r - cum < (configs.map (·.weight)).sum →
      weightedScan configs slaves r cum i =
        slaves.get? (i + firstIndexExceeding (configs.map (·.weight)) (r - cum)) := by
  intro configs
  induction configs with
  | nil =>
      intro slaves r cum i hle hlt
      simp only [List.map_nil, List.sum_nil] at hlt
      omega
  | cons c rest ih =>
      intro slaves r cum i hle hlt
      simp only [List.map_cons, List.sum_cons] at hlt
      unfold weightedScan
      rw [List.map_cons, firstIndexExceeding_cons]
      by_cases hcase : r < cum + c.weight
      · rw [if_pos hcase, if_pos (by omega : r - cum < c.weight), Nat.add_zero]
      · rw [if_neg hcase, if_neg (by omega : ¬r - cum < c.weight)]
        have hrw : r - cum - c.weight = r - (cum + c.weight) := by ring
        rw [hrw, ih slaves r (cum + c.weight) (i + 1) (by omega) (by omega)]
        congr 1
        omega

theorem weightedScan_is_get? {DB : Type} :
    ∀ (configs : List ConnectionConfig) (slaves : List DB) (r cum : Int) (i : Nat),
      ∃ j, weightedScan configs slaves r cum i = slaves.get? j := by
  intro configs
  induction configs with
  | nil => intro slaves r cum i; exact ⟨0, rfl⟩
  | cons c rest ih =>
      intro slaves r cum i
      unfold weightedScan
      by_cases hcase : r < cum + c.weight
      · rw [if_pos hcase]; exact ⟨i, rfl⟩
      · rw [if_neg hcase]; exact ih slaves r (cum + c.weight) (i + 1)

theorem selectWeightedSlave_is_get? {DB : Type} (m : Manager DB) (r : Nat) :
    ∃ j, selectWeightedSlave m r = m.slaves.get? j := by
  unfold selectWeightedSlave
  by_cases hcase : (m.config.slaves.map (·.weight)).sum = 0
  · rw [if_pos hcase]; exact ⟨0, rfl⟩
  · rw [if_neg hcase]; exact weightedScan_is_get? m.config.slaves m.slaves r 0 0

/-- A concrete topology for the weighted-selection witness: configured
weights [3, 1], both slaves connected (handles 100 and 200). -/
def mgrW31 : Manager Nat :=
  { db := 1
    config := { slaveStrategy := "weighted"
                readWriteSplitting := true
                slaves := [{ host := "s0", weight := 3 }, { host := "s1", weight := 1 }] }
    master := 1
    slaves := [100, 200]
    slaveIndex := 0
    connections := [] }

/-- A concrete topology with total configured weight 0. -/
def mgrW0 : Manager Nat :=
  { db := 1
    config := { slaveStrategy := "weighted"
                readWriteSplitting := true
                slaves := [{ host := "s0", weight := 0 }] }
    master := 1
    slaves := [100]
    slaveIndex := 0
    connections := [] }

/-- C3: weighted selection — total configured weight 0 returns `slaves[0]`;
otherwise a draw `r < total` returns the first slave whose cumulative
configured weight strictly exceeds `r`; in particular with weights [3, 1]
draws 0, 1, 2 select slave 0 and draw 3 selects slave 1. -/
theorem c3_weighted_selection :
    (∀ {DB : Type} (m : Manager DB) (r : Nat),
        ((m.config.slaves.map (·.weight)).sum = 0 →
          selectWeightedSlave m r = m.slaves.get? 0)
      ∧ ((r : Int) < (m.config.slaves.map (·.weight)).sum →
          selectWeightedSlave m r =
            m.slaves.get? (firstIndexExceeding (m.config.slaves.map (·.weight)) r)))
    ∧ (selectSlave mgrW31 0 = (some 100, mgrW31)
      ∧ selectSlave mgrW31 1 = (some 100, mgrW31)
      ∧ selectSlave mgrW31 2 = (some 100, mgrW31)
      ∧ selectSlave mgrW31 3 = (some 200, mgrW31)) := by
  constructor
  · intro DB m r
    constructor
    · intro h0
      unfold selectWeightedSlave
      rw [if_pos h0]
    · intro hlt
      unfold selectWeightedSlave
      rw [if_neg (by omega : ¬(m.config.slaves.map (·.weight)).sum = 0)]
      have h := weightedScan_eq_firstIndexExceeding m.config.slaves m.slaves (r : Int) 0 0
        (by positivity) (by omega)
      rw [h]
      norm_num
  · refine ⟨by decide, by decide, by decide, by decide⟩

theorem c3_weighted_selection_witness :
    (((mgrW0.config.slaves.map (·.weight)).sum = 0
        ∧ selectWeightedSlave mgrW0 0 = mgrW0.slaves.get? 0)
      ∧ ((3 : Int) < (mgrW31.config.slaves.map (·.weight)).sum
        ∧ selectWeightedSlave mgrW31 3 =
            mgrW31.slaves.get? (firstIndexExceeding (mgrW31.config.slaves.map (·.weight)) 3))) :=
  ⟨⟨by decide, (c3_weighted_selection.1 mgrW0 0).1 (by decide)⟩,
   ⟨by decide, (c3_weighted_selection.1 mgrW31 3).2 (by decide)⟩⟩

/-- The configuration of the C10 failing input: weighted strategy, two
configured slaves of weight 1 each. -/
def cfgC10 : Config :=
  { readWriteSplitting := true
    slaveStrategy := "weighted"
    slaves := [{ host := "a", weight := 1 }, { host := "b", weight := 1 }] }

/-- The environment of the C10 failing input: the first configured slave is
unreachable, so only one slave connects. -/
def worldC10 : World Nat :=
  { connectPrimary := Except.ok 1
    autoMigrateOk := true
    connectMaster := Except.ok 99
    connectSlave := fun i => if i = 0 then Except.error "connection refused" else Except.ok 50
    connectNamed := fun _ => Except.ok 0 }

/-- The manager that `NewManager cfgC10 worldC10` builds: a single
connected slave, but two configured slave weights. -/
def mgrC10 : Manager Nat :=
  { db := 1
    config := cfgC10
    master := 1
    slaves := [50]
    slaveIndex := 0
    connections := [] }

/-- C10 (refuted — code bug): with one connected slave but two configured
weights, construction succeeds, the draw r = 1 is a legal draw
(1 < total weight 2), yet the weighted scan reaches `m.slaves[1]`, an
out-of-range index (`none` here, a runtime panic in Go). -/
theorem c10_weighted_index_out_of_bounds :
    NewManager cfgC10 worldC10 = Except.ok mgrC10
    ∧ mgrC10.slaves.length = 1
    ∧ (1 : Int) < (mgrC10.config.slaves.map (·.weight)).sum
    ∧ (selectSlave mgrC10 1).1 = none := by
  refine ⟨by rfl, by decide, by decide, by decide⟩

theorem selectSlave_is_get? {DB : Type} (m : Manager DB) (r : Nat) :
    ∃ j, (selectSlave m r).1 = m.slaves.get? j := by
  unfold selectSlave
  split
  · exact ⟨m.slaveIndex, rfl⟩
  · exact ⟨r, rfl⟩
  · exact selectWeightedSlave_is_get? m r
  · exact ⟨0, rfl⟩

/-- C5: `Read` returns the master when splitting is disabled or no slave
connected; with splitting enabled and a nonempty connected-slave list whose
handles are distinct from the master, `Read` is exactly `selectSlave` and
never yields the master handle. -/
theorem c5_read_routing {DB : Type} (m : Manager DB) (r : Nat) :
    ((m.config.readWriteSplitting = false ∨ m.slaves = []) → Read m r = (some m.master, m))
    ∧ (m.config.readWriteSplitting = true → m.slaves ≠ [] → m.master ∉ m.slaves →
        Read m r = selectSlave m r ∧ (Read m r).1 ≠ some m.master) := by
  constructor
  · intro h
    unfold Read
    rcases h with h | h
    · rw [h]; rfl
    · rw [h]; simp
  · intro hsplit hne hnotmem
    have hcond : (!m.config.readWriteSplitting || m.slaves.isEmpty) = false := by
      rw [hsplit]
      simpa using hne
    have hread : Read m r = selectSlave m r := by
      unfold Read
      rw [hcond]
      simp
    refine ⟨hread, ?_⟩
    rw [hread]
    obtain ⟨j, hj⟩ := selectSlave_is_get? m r
    rw [hj]
    intro hcontra
    exact hnotmem (List.get?_mem hcontra)

theorem c5_read_routing_witness :
    ((mgrW0.config.readWriteSplitting = false ∨ mgrW0.slaves = []) →
        Read mgrW0 0 = (some mgrW0.master, mgrW0))
    ∧ (mgrRR.config.readWriteSplitting = true ∧ mgrRR.slaves ≠ [] ∧ mgrRR.master ∉ mgrRR.slaves
      ∧ (Read mgrRR 0 = selectSlave mgrRR 0 ∧ (Read mgrRR 0).1 ≠ some mgrRR.master)) :=
  ⟨(c5_read_routing mgrW0 0).1,
   ⟨rfl, by decide, by decide,
    (c5_read_routing mgrRR 0).2 rfl (by decide) (by decide)⟩⟩

theorem kwGuard_redundant (sql kw : List Char) :
    (decide (kw.length ≤ sql.length) && decide (sql.take kw.length = kw)) =
      decide (sql.take kw.length = kw) := by
  by_cases h : sql.take kw.length = kw
  · have hlen := congrArg List.length h
    rw [List.length_take] at hlen
    have : kw.length ≤ sql.length := by omega
    simp [h, this]
  · simp [h]

theorem isWriteOperation_eq_take (sql : List Char) :
    isWriteOperation sql =
      if sql.isEmpty then false
      else writeKeywords.any fun kw => decide (sql.take kw.length = kw) := by
  unfold isWriteOperation
  simp only [kwGuard_redundant]

theorem take_eq_iff_append (sql kw : List Char) :
    sql.take kw.length = kw ↔ ∃ rest, sql = kw ++ rest := by
  constructor
  · intro h
    have hsplit := List.take_append_drop kw.length sql
    rw [h] at hsplit
    exact ⟨sql.drop kw.length, hsplit.symm⟩
  · rintro ⟨rest, rfl⟩
    exact List.take_left kw rest

/-- C4: the classifier reports a write exactly when the command text has
one of the six write verbs as a literal leading segment; texts beginning
with SELECT, SHOW, DESCRIBE or EXPLAIN are classified as reads. -/
theorem c4_write_classifier :
    (∀ sql : List Char,
        isWriteOperation sql = true ↔ ∃ kw ∈ writeKeywords, ∃ rest, sql = kw ++ rest)
    ∧ ∀ rest : List Char,
        isWriteOperation ("SELECT".toList ++ rest) = false
      ∧ isWriteOperation ("SHOW".toList ++ rest) = false
      ∧ isWriteOperation ("DESCRIBE".toList ++ rest) = false
      ∧ isWriteOperation ("EXPLAIN".toList ++ rest) = false := by
  constructor
  · intro sql
    rw [isWriteOperation_eq_take]
    by_cases hempty : sql.isEmpty
    · rw [if_pos hempty]
      have hnil : sql = [] := List.isEmpty_iff.mp hempty
      subst hnil
      simp only [Bool.false_eq_true, false_iff]
      rintro ⟨kw, hkw, rest, heq⟩
      rcases List.append_eq_nil.mp heq.symm with ⟨h1, _⟩
      subst h1
      exact absurd hkw (by decide)
    · rw [if_neg hempty, List.any_eq_true]
      constructor
      · rintro ⟨kw, hkw, hdec⟩
        exact ⟨kw, hkw, (take_eq_iff_append sql kw).mp (of_decide_eq_true hdec)⟩
      · rintro ⟨kw, hkw, rest, heq⟩
        exact ⟨kw, hkw, decide_eq_true ((take_eq_iff_append sql kw).mpr ⟨rest, heq⟩)⟩
  · intro rest
    refine ⟨?_, ?_, ?_, ?_⟩ <;> rw [isWriteOperation_eq_take] <;> rfl

/-- The configuration of the C1 counterexample: splitting enabled with an
explicit master host. -/
def cfgC1 : Config :=
  { readWriteSplitting := true
    master := { host := "master-host" } }

/-- The environment of the C1 counterexample: the primary dial succeeds,
the master dial fails. -/
def worldC1 : World Nat :=
  { connectPrimary := Except.ok 1
    autoMigrateOk := true
    connectMaster := Except.error "refused"
    connectSlave := fun _ => Except.ok 2
    connectNamed := fun _ => Except.ok 3 }

/-- C1 (counterexample): the primary connection succeeds, yet `NewManager`
aborts, because a configured master whose dial fails is fatal —
master-connection failures are not logged-and-skipped. -/
theorem c1_counterexample :
    worldC1.connectPrimary = Except.ok 1
    ∧ NewManager cfgC1 worldC1 = Except.error "failed to connect to master: refused" :=
  ⟨rfl, rfl⟩

/-- C1 (amended): `NewManager` succeeds whenever the primary dial succeeds,
the configured auto-migration (if any) succeeds, and — when splitting is
enabled with an explicit master host — the master dial succeeds; the
resulting topology keeps exactly the slaves and named connections whose
dials succeeded, every failed slot being simply absent. -/
theorem c1_construction_failure_modes {DB : Type} (cfg : Config) (w : World DB) (db : DB)
    (hp : w.connectPrimary = Except.ok db)
    (hmig : cfg.autoMigrate = true → cfg.modelsCount ≠ 0 → w.autoMigrateOk = true)
    (hm : cfg.readWriteSplitting = true → cfg.master.host ≠ "" →
      ∃ mdb, w.connectMaster = Except.ok mdb) :
    ∃ m : Manager DB, NewManager cfg w = Except.ok m
      ∧ m.db = db
      ∧ m.slaves = (if cfg.readWriteSplitting then connectedSlaves cfg w else [])
      ∧ m.connections =
          (if cfg.connections.length ≠ 0 then connectedNamed cfg w else []) := by
  have hprim : setupPrimaryConnection cfg w = Except.ok db := by
    unfold setupPrimaryConnection
    rw [hp]
    dsimp only
    by_cases hc : cfg.autoMigrate = true ∧ cfg.modelsCount ≠ 0
    · rw [if_pos hc]
      simp [hmig hc.1 hc.2]
    · rw [if_neg hc]
  have hsplit : ∃ ms : DB × List DB,
      (if cfg.readWriteSplitting then setupReadWriteSplitting cfg w db
       else Except.ok (db, [])) = Except.ok ms
      ∧ ms.2 = (if cfg.readWriteSplitting then connectedSlaves cfg w else []) := by
    by_cases hrws : cfg.readWriteSplitting = true
    · rw [if_pos hrws, if_pos hrws]
      unfold setupReadWriteSplitting
      by_cases hhost : cfg.master.host ≠ ""
      · obtain ⟨mdb, hmd⟩ := hm hrws hhost
        rw [if_pos hhost, hmd]
        exact ⟨(mdb, connectedSlaves cfg w), rfl, rfl⟩
      · rw [if_neg hhost]
        exact ⟨(db, connectedSlaves cfg w), rfl, rfl⟩
    · rw [if_neg hrws, if_neg hrws]
      exact ⟨(db, []), rfl, rfl⟩
  obtain ⟨ms, hms, hms2⟩ := hsplit
  refine ⟨{ db := db, config := cfg, master := ms.1, slaves := ms.2, slaveIndex := 0,
            connections := if cfg.connections.length ≠ 0 then connectedNamed cfg w else [] },
          ?_, rfl, hms2, rfl⟩
  unfold NewManager
  rw [hprim]
  dsimp only
  rw [hms]

/-- The configuration of the C1 witness: splitting with a reachable master,
one unreachable slave, one reachable named connection. -/
def cfgC1W : Config :=
  { readWriteSplitting := true
    master := { host := "mh" }
    slaves := [{ host := "s0" }]
    connections := [("analytics", { host := "a" })] }

/-- The environment of the C1 witness. -/
def worldC1W : World Nat :=
  { connectPrimary := Except.ok 1
    autoMigrateOk := true
    connectMaster := Except.ok 2
    connectSlave := fun _ => Except.error "down"
    connectNamed := fun _ => Except.ok 3 }

theorem c1_construction_failure_modes_witness :
    worldC1W.connectPrimary = Except.ok 1
    ∧ ∃ m : Manager Nat, NewManager cfgC1W worldC1W = Except.ok m
      ∧ m.db = 1
      ∧ m.slaves = (if cfgC1W.readWriteSplitting then connectedSlaves cfgC1W worldC1W else [])
      ∧ m.connections =
          (if cfgC1W.connections.length ≠ 0 then connectedNamed cfgC1W worldC1W else []) :=
  ⟨rfl, c1_construction_failure_modes cfgC1W worldC1W 1 rfl
    (fun h _ => by cases h) (fun _ _ => ⟨2, rfl⟩)⟩

theorem retryLoop_allFail (rc : RetryConfig) (outcome : Nat → Except String Unit)
    (c : Nat → String) (hout : ∀ n, outcome n = Except.error (c n)) :
    ∀ (r attempt : Nat) (d : Int),
      retryLoop outcome rc (r + 1) attempt d =
        (r + 1, (List.range r).map (fun k => (nextDelay rc)^[k] d),
         Except.error (some (c (attempt + r)))) := by
  intro r
  induction r with
  | zero =>
      intro attempt d
      unfold retryLoop
      rw [hout attempt]
      simp
  | succ r ih =>
      intro attempt d
      unfold retryLoop
      rw [hout attempt]
      dsimp only
      rw [if_neg (by omega : ¬r + 1 = 0), ih (attempt + 1) (nextDelay rc d)]
      refine congrArg₂ Prod.mk rfl (congrArg₂ Prod.mk ?_ ?_)
      · rw [List.range_succ_eq_map, List.map_cons, List.map_map]
        refine congrArg₂ List.cons rfl ?_
        refine List.map_congr_left fun k _ => ?_
        exact (Function.iterate_succ_apply (nextDelay rc) k d).symm
      · exact congrArg (fun n => Except.error (some (c n))) (by omega)

/-- An always-failing dial: every attempt returns the same error. -/
def failOutcome : Nat → Except String Unit := fun _ => Except.error "dial error"

/-- Retry disabled. -/
def rcOff : RetryConfig :=
  { enabled := false, maxAttempts := 3, initialDelay := 100, maxDelay := 500,
    backoffFactor := 2 }

/-- The spec's concrete retry policy: 3 attempts, 100 ms initial delay,
factor 2.0, 5 s cap (delays in nanoseconds). -/
def rcSpec : RetryConfig :=
  { enabled := true, maxAttempts := 3, initialDelay := 100000000,
    maxDelay := 5000000000, backoffFactor := 2 }

/-- A policy whose initial delay exceeds the cap. -/
def rcBad : RetryConfig :=
  { enabled := true, maxAttempts := 2, initialDelay := 10, maxDelay := 5,
    backoffFactor := 2 }

/-- C6 (counterexample): with `InitialDelay = 10 > MaxDelay = 5` the single
sleep is 10 — the initial delay is never capped, so the claimed formula
`k-th sleep = min(InitialDelay·BackoffFactor^(k-1), MaxDelay)`, which
predicts 5 for the first sleep, is wrong. -/
theorem c6_counterexample :
    (connectWithRetry rcBad failOutcome).sleeps = [10]
    ∧ min ((rcBad.initialDelay : ℚ) * rcBad.backoffFactor ^ (0 : Nat)) (rcBad.maxDelay : ℚ)
        ≠ ((10 : Int) : ℚ) := by
  constructor
  · have hloop := retryLoop_allFail rcBad failOutcome (fun _ => "dial error")
      (fun _ => rfl) 1 1 rcBad.initialDelay
    unfold connectWithRetry
    rw [show rcBad.enabled = true from rfl, if_neg (by decide : ¬true = false)]
    rw [show rcBad.maxAttempts = 1 + 1 from rfl, hloop]
    rfl
  · have h1 : ((rcBad.initialDelay : ℚ) * rcBad.backoffFactor ^ (0 : Nat)) = 10 := by
      norm_num [rcBad]
    have h2 : ((rcBad.maxDelay : ℚ)) = 5 := by norm_num [rcBad]
    have h3 : ((10 : Int) : ℚ) = 10 := by norm_num
    rw [h1, h2, h3, min_eq_right (by norm_num : (5 : ℚ) ≤ 10)]
    norm_num

/-- C6 (amended): a disabled policy makes exactly one direct attempt with
no sleep; an enabled policy against an always-failing target makes exactly
`MaxAttempts` attempts, sleeps only between attempts, the k-th sleep being
the k-fold `nextDelay` iterate of `InitialDelay` (the first sleep is the
uncapped `InitialDelay`; each later sleep is the truncated product with
`BackoffFactor`, capped at `MaxDelay`), and the final error names
`MaxAttempts` and wraps the last attempt's cause; on the spec's concrete
policy this gives 3 attempts, sleeps of 100 ms then 200 ms, and an error
naming 3 attempts. -/
theorem c6_retry_backoff :
    (∀ (rc : RetryConfig) (outcome : Nat → Except String Unit),
        rc.enabled = false →
        (connectWithRetry rc outcome).attemptsMade = 1
        ∧ (connectWithRetry rc outcome).sleeps = [])
    ∧ (∀ (rc : RetryConfig) (c : Nat → String) (outcome : Nat → Except String Unit),
        rc.enabled = true → (∀ n, outcome n = Except.error (c n)) → 1 ≤ rc.maxAttempts →
        (connectWithRetry rc outcome).attemptsMade = rc.maxAttempts
        ∧ (connectWithRetry rc outcome).sleeps =
            (List.range (rc.maxAttempts - 1)).map
              (fun k => (nextDelay rc)^[k] rc.initialDelay)
        ∧ (connectWithRetry rc outcome).result =
            Except.error (ConnError.exhausted rc.maxAttempts (some (c rc.maxAttempts))))
    ∧ connectWithRetry rcSpec failOutcome =
        ⟨Except.error (ConnError.exhausted 3 (some "dial error")), 3,
         [100000000, 200000000]⟩ := by
  refine ⟨?_, ?_, ?_⟩
  · intro rc outcome h
    unfold connectWithRetry
    rw [h, if_pos rfl]
    cases houtcome : outcome 1 <;> exact ⟨rfl, rfl⟩
  · intro rc c outcome henabled hout hmax
    obtain ⟨r, hr⟩ : ∃ r, rc.maxAttempts = r + 1 := ⟨rc.maxAttempts - 1, by omega⟩
    unfold connectWithRetry
    rw [henabled, if_neg (by decide : ¬true = false)]
    rw [hr, retryLoop_allFail rc outcome c hout r 1 rc.initialDelay]
    dsimp only
    refine ⟨rfl, by simp, ?_⟩
    have h1r : 1 + r = r + 1 := by omega
    rw [h1r]
  · have hloop := retryLoop_allFail rcSpec failOutcome (fun _ => "dial error")
      (fun _ => rfl) 2 1 rcSpec.initialDelay
    have hcast : ((100000000 : Int) : ℚ) * rcSpec.backoffFactor = (200000000 : ℚ) := by
      norm_num [rcSpec]
    have hnd1 : nextDelay rcSpec 100000000 = 200000000 := by
      unfold nextDelay
      rw [hcast]
      rfl
    unfold connectWithRetry
    rw [show rcSpec.enabled = true from rfl, if_neg (by decide : ¬true = false)]
    rw [show rcSpec.maxAttempts = 2 + 1 from rfl, hloop]
    dsimp only
    have hsleeps : (List.range 2).map (fun k => (nextDelay rcSpec)^[k] rcSpec.initialDelay) =
        [100000000, 200000000] := by
      have : rcSpec.initialDelay = 100000000 := rfl
      simp [List.range_succ, this, hnd1]
    rw [hsleeps]

theorem c6_retry_backoff_witness :
    (rcOff.enabled = false
      ∧ (connectWithRetry rcOff failOutcome).attemptsMade = 1
      ∧ (connectWithRetry rcOff failOutcome).sleeps = [])
    ∧ (rcSpec.enabled = true ∧ (∀ n, failOutcome n = Except.error "dial error")
      ∧ 1 ≤ rcSpec.maxAttempts
      ∧ (connectWithRetry rcSpec failOutcome).attemptsMade = rcSpec.maxAttempts
      ∧ (connectWithRetry rcSpec failOutcome).sleeps =
          (List.range (rcSpec.maxAttempts - 1)).map
            (fun k => (nextDelay rcSpec)^[k] rcSpec.initialDelay)
      ∧ (connectWithRetry rcSpec failOutcome).result =
          Except.error (ConnError.exhausted rcSpec.maxAttempts
            (some ((fun _ => "dial error") rcSpec.maxAttempts)))) :=
  ⟨⟨rfl, c6_retry_backoff.1 rcOff failOutcome rfl⟩,
   ⟨rfl, fun _ => rfl, by decide,
    (c6_retry_backoff.2.1 rcSpec (fun _ => "dial error") failOutcome rfl
      (fun _ => rfl) (by decide)).1,
    (c6_retry_backoff.2.1 rcSpec (fun _ => "dial error") failOutcome rfl
      (fun _ => rfl) (by decide)).2.1,
    (c6_retry_backoff.2.1 rcSpec (fun _ => "dial error") failOutcome rfl
      (fun _ => rfl) (by decide)).2.2⟩⟩

theorem lookupConn_filter_ne {DB : Type} (name other : String) (hne : other ≠ name) :
    ∀ conns : List (String × DB),
      lookupConn (conns.filter fun p => p.1 ≠ name) other = lookupConn conns other := by
  intro conns
  induction conns with
  | nil => rfl
  | cons p rest ih =>
      unfold lookupConn at ih ⊢
      by_cases hp : p.1 = name
      · rw [show (p :: rest).filter (fun q => decide (q.1 ≠ name)) =
              rest.filter (fun q => decide (q.1 ≠ name)) by simp [List.filter_cons, hp]]
        rw [ih]
        rw [List.find?_cons_of_neg _ (by simp [hp]; exact fun h => hne h.symm)]
      · rw [show (p :: rest).filter (fun q => decide (q.1 ≠ name)) =
              p :: rest.filter (fun q => decide (q.1 ≠ name)) by simp [List.filter_cons, hp]]
        by_cases hpo : p.1 = other
        · rw [List.find?_cons_of_pos _ (by simp [hpo]),
              List.find?_cons_of_pos _ (by simp [hpo])]
        · rw [List.find?_cons_of_neg _ (by simp [hpo]),
              List.find?_cons_of_neg _ (by simp [hpo])]
          exact ih

theorem lookupConn_mapInsert_self {DB : Type} (conns : List (String × DB))
    (name : String) (db : DB) :
    lookupConn (mapInsert conns name db) name = some db := by
  unfold mapInsert lookupConn
  rw [List.find?_cons_of_pos _ (by simp)]
  rfl

theorem lookupConn_mapInsert_other {DB : Type} (conns : List (String × DB))
    (name other : String) (db : DB) (hne : other ≠ name) :
    lookupConn (mapInsert conns name db) other = lookupConn conns other := by
  unfold mapInsert
  have hhead : lookupConn ((name, db) :: conns.filter fun p => p.1 ≠ name) other =
      lookupConn (conns.filter fun p => p.1 ≠ name) other := by
    unfold lookupConn
    rw [List.find?_cons_of_neg _ (by simp; exact fun h => hne h.symm)]
  rw [hhead]
  exact lookupConn_filter_ne name other hne conns

/-- A concrete registry for the C7 counterexample: the name "x" is bound
to handle 7. -/
def mgrConn : Manager Nat :=
  { db := 1
    config := {}
    master := 1
    slaves := []
    slaveIndex := 0
    connections := [("x", 7)] }

/-- C7 (counterexample): overwriting the existing binding "x" closes
nothing — the list of handles closed during `AddConnection` is empty even
though the old handle 7 was registered, so the old handle's resources are
not released. -/
theorem c7_counterexample :
    lookupConn mgrConn.connections "x" = some 7
    ∧ AddConnection mgrConn "x" (Except.ok 8) =
        Except.ok ({ mgrConn with connections := mapInsert mgrConn.connections "x" 8 }, [])
    ∧ lookupConn (mapInsert mgrConn.connections "x" 8) "x" = some 8
    ∧ (7 : Nat) ∉ ([] : List Nat) :=
  ⟨rfl, rfl, rfl, by decide⟩

/-- C7 (amended): a successful `AddConnection` on an already-present name
replaces the binding — afterwards the registry maps the name to the new
handle only, and all other names are untouched — but it closes nothing:
the old handle's resources are not released. -/
theorem c7_add_replaces_without_closing {DB : Type} (m : Manager DB) (name : String)
    (db old : DB) (_hold : lookupConn m.connections name = some old) :
    AddConnection m name (Except.ok db) =
      Except.ok ({ m with connections := mapInsert m.connections name db }, [])
    ∧ lookupConn (mapInsert m.connections name db) name = some db
    ∧ ∀ other, other ≠ name →
        lookupConn (mapInsert m.connections name db) other = lookupConn m.connections other := by
  refine ⟨rfl, lookupConn_mapInsert_self m.connections name db, ?_⟩
  intro other hne
  exact lookupConn_mapInsert_other m.connections name other db hne

theorem c7_add_replaces_without_closing_witness :
    lookupConn mgrConn.connections "x" = some 7
    ∧ (AddConnection mgrConn "x" (Except.ok 8) =
        Except.ok ({ mgrConn with connections := mapInsert mgrConn.connections "x" 8 }, [])
      ∧ lookupConn (mapInsert mgrConn.connections "x" 8) "x" = some 8
      ∧ ∀ other, other ≠ "x" →
          lookupConn (mapInsert mgrConn.connections "x" 8) other =
            lookupConn mgrConn.connections other) :=
  ⟨rfl, c7_add_replaces_without_closing mgrConn "x" 8 7 rfl⟩

/-- A named-connection configuration targeting an in-memory sqlite
database with explicit pool overrides. -/
def ccMem : ConnectionConfig :=
  { driver := "sqlite", filePath := ":memory:",
    maxOpenConns := some 10, maxIdleConns := some 5 }

/-- C8 (counterexample): a master/slave/named connection established via
`connectWithConfig` against an in-memory sqlite target is NOT forced to a
1 open / 1 idle pool — its configured overrides are applied as-is. -/
theorem c8_counterexample :
    ccMem.driver = "sqlite" ∧ ccMem.filePath = ":memory:"
    ∧ connectWithConfigPoolSettings ccMem ≠ ⟨some 1, some 1⟩
    ∧ connectWithConfigPoolSettings ccMem = ⟨some 10, some 5⟩ :=
  ⟨rfl, rfl, by decide, rfl⟩

/-- C8 (amended): the 1 open / 1 idle forcing for in-memory sqlite targets
applies exactly to the primary connection (`setupPrimaryConnection`),
overriding any configured pool sizes there; connections established from a
`ConnectionConfig` (master, slaves, named connections) receive their
configured overrides unconditionally, with no in-memory special case. -/
theorem c8_memory_pool_primary_only :
    (∀ c : Config, c.driver = "sqlite" →
        (c.database = ":memory:" ∨ c.filePath = ":memory:") →
        primaryPoolSettings c = ⟨some 1, some 1⟩)
    ∧ ∀ cc : ConnectionConfig,
        connectWithConfigPoolSettings cc = ⟨cc.maxOpenConns, cc.maxIdleConns⟩ := by
  constructor
  · intro c h1 h2
    unfold primaryPoolSettings
    rw [if_pos ⟨h1, h2⟩]
  · intro cc
    rfl

/-- A primary configuration targeting an in-memory sqlite database with
config-level pool sizes that the forcing must override. -/
def cfgMem : Config :=
  { driver := "sqlite", database := ":memory:",
    maxOpenConns := 100, maxIdleConns := 10 }

theorem c8_memory_pool_primary_only_witness :
    ((cfgMem.driver = "sqlite" ∧ (cfgMem.database = ":memory:" ∨ cfgMem.filePath = ":memory:"))
      ∧ primaryPoolSettings cfgMem = ⟨some 1, some 1⟩)
    ∧ connectWithConfigPoolSettings ccMem = ⟨ccMem.maxOpenConns, ccMem.maxIdleConns⟩ :=
  ⟨⟨⟨rfl, Or.inl rfl⟩, c8_memory_pool_primary_only.1 cfgMem rfl (Or.inl rfl)⟩,
   c8_memory_pool_primary_only.2 ccMem⟩

/-- The configuration of the C9 failing input: splitting with an explicit
master host, one slave, one named connection. -/
def cfgC9 : Config :=
  { readWriteSplitting := true
    master := { host := "mh" }
    slaves := [{ host := "s0" }]
    connections := [("a", { host := "ah" })] }

/-- The environment of the C9 failing input: every dial succeeds, with
distinct handles (primary 1, master 2, slave 3, named 4). -/
def worldC9 : World Nat :=
  { connectPrimary := Except.ok 1
    autoMigrateOk := true
    connectMaster := Except.ok 2
    connectSlave := fun _ => Except.ok 3
    connectNamed := fun _ => Except.ok 4 }

/-- The manager `NewManager cfgC9 worldC9` builds: its master handle 2 was
dialed separately from the primary handle 1. -/
def mgrC9 : Manager Nat :=
  { db := 1
    config := cfgC9
    master := 2
    slaves := [3]
    slaveIndex := 0
    connections := [("a", 4)] }

/-- C9 (refuted — code bug): in a topology whose master was established
separately from the primary, `Close` closes the primary, the slave and the
named connection but never the master handle, though the code documents
`Close` as closing all database connections. -/
theorem c9_close_misses_separate_master :
    NewManager cfgC9 worldC9 = Except.ok mgrC9
    ∧ Close mgrC9 = [1, 3, 4]
    ∧ mgrC9.master = 2
    ∧ mgrC9.master ∉ Close mgrC9 :=
  ⟨rfl, rfl, rfl, by decide⟩

end Database
